import Mathlib

set_option maxRecDepth 100000

/-
Shallow embedding of the leader-side Raft replication queue of this
repository (kudu/consensus).  The queue implementation itself
(PeerMessageQueue and the hierarchical memory accountant) is not present
under src/; only its unit tests are.  The definitions below therefore model
the missing component from the specification, and each such definition
carries a doc comment saying so.  Where the specification's prose is
internally inconsistent, the in-repo test file consensus_queue-test.cc is
used to resolve the reading (noted at the relevant definitions).
-/

namespace ConsensusQueue

/-- Modelled from the spec: an operation identifier, a pair of term and
index, totally ordered by term then index (spec section 3, "OpId"). -/
structure OpId where
  term : Nat
  index : Nat
deriving DecidableEq, Repr

/-- Modelled from the spec: the sentinel MinimumOpId (0, 0). -/
def minOpId : OpId := ⟨0, 0⟩

/-- Strict total order on OpId: compare term, then index. -/
def OpId.lt (a b : OpId) : Prop :=
  a.term < b.term ∨ (a.term = b.term ∧ a.index < b.index)

/-- Non-strict total order on OpId: compare term, then index. -/
def OpId.le (a b : OpId) : Prop :=
  a.term < b.term ∨ (a.term = b.term ∧ a.index ≤ b.index)

instance (a b : OpId) : Decidable (OpId.lt a b) := by
  unfold OpId.lt; infer_instance

instance (a b : OpId) : Decidable (OpId.le a b) := by
  unfold OpId.le; infer_instance

/-- Modelled from the spec: a replicate operation, an opaque payload with
an OpId and a serialized byte size (spec section 3, "ReplicateOp"); the
queue only accounts the size. -/
structure ReplicateOp where
  id : OpId
  size : Nat
deriving DecidableEq, Repr

/-- Modelled from the spec: a tracked peer's replication cursor
(spec section 3, "PeerCursor"). -/
structure PeerCursor where
  last_received : OpId
  synced : Bool
deriving DecidableEq, Repr

/-- Soft and hard byte thresholds of one accountant level. -/
structure MemLimits where
  soft : Nat
  hard : Nat
deriving DecidableEq, Repr

/-- Modelled from the spec: verdict of the hierarchical accountant's
try_consume, with hard_exceeded naming the violating level
(spec section 4.1). -/
inductive Verdict where
  | ok
  | softExceeded
  | hardLocal
  | hardParent
deriving DecidableEq, Repr

/-- Result of append_operation. -/
inductive AppendResult where
  | ok
  | serviceUnavailable
deriving DecidableEq, Repr

/-- Modelled from the spec: the whole state owned by the queue coordinator
(PeerMessageQueue), absent from src/: operation buffer, peer tracker,
queue metadata, local accountant level and the optional process-wide
parent accountant level (spec sections 2 and 3). -/
structure QueueState where
  current_term : Nat
  majority_size : Nat
  committed_index : OpId
  next_index_to_append : Nat
  preceding_at_init : OpId
  buffer : List ReplicateOp
  peers : List (String × PeerCursor)
  localLimits : MemLimits
  localCurrent : Nat
  parentLimits : Option MemLimits
  parentCurrent : Nat
  max_batch_size : Nat
deriving DecidableEq, Repr

/-- Does charging n bytes break the parent level's hard limit? -/
def parentHardHit (q : QueueState) (n : Nat) : Bool :=
  match q.parentLimits with
  | none => false
  | some pl => decide (pl.hard < q.parentCurrent + n)

/-- Does charging n bytes break the parent level's soft limit? -/
def parentSoftHit (q : QueueState) (n : Nat) : Bool :=
  match q.parentLimits with
  | none => false
  | some pl => decide (pl.soft < q.parentCurrent + n)

/-- Modelled from the spec: try_consume of the hierarchical memory
accountant, absent from src/ (MemTracker).  Walks self then parent; a
crossed hard limit at either level dominates, else a crossed soft limit,
else the charge would be admissible (spec section 4.1). -/
def tryVerdict (q : QueueState) (n : Nat) : Verdict :=
  if q.localLimits.hard < q.localCurrent + n then Verdict.hardLocal
  else if parentHardHit q n then Verdict.hardParent
  else if q.localLimits.soft < q.localCurrent + n then Verdict.softExceeded
  else if parentSoftHit q n then Verdict.softExceeded
  else Verdict.ok

/-- Charge n bytes at both accountant levels and push the op: the success
path of append (spec section 4.2, step 3). -/
def admitOp (q : QueueState) (op : ReplicateOp) : QueueState :=
  { q with
    buffer := q.buffer ++ [op]
    next_index_to_append := op.id.index + 1
    localCurrent := q.localCurrent + op.size
    parentCurrent := q.parentCurrent + op.size }

/-- Modelled from the spec: opportunistic trim, absent from src/.  Removes
the longest buffer prefix whose indices are at most the minimum
acknowledged index across tracked peers, releasing the bytes at both
accountant levels (spec section 4.2, step 4).  With no tracked peer
nothing can be trimmed. -/
def trimQueue (q : QueueState) : QueueState :=
  match q.peers.map (fun p => p.2.last_received.index) with
  | [] => q
  | i :: is =>
    let lo := is.foldl Nat.min i
    let dropped := q.buffer.takeWhile (fun op => decide (op.id.index ≤ lo))
    let freed := (dropped.map (fun op => op.size)).sum
    { q with
      buffer := q.buffer.dropWhile (fun op => decide (op.id.index ≤ lo))
      localCurrent := q.localCurrent - freed
      parentCurrent := q.parentCurrent - freed }

/-- Modelled from the spec: append_operation admission control, absent from
src/ (spec section 4.2).  On a limit breach the queue trims the
acknowledged prefix and retries once; a retry that leaves only a soft
breach admits the op while the local hard limit is not crossed, a local
hard breach with an empty buffer still admits one op (the single-message
guarantee at admission, spec sections 3 and 4.2), and anything else
refuses with service_unavailable.  (Spec section 4.2 step 5 words the
soft-breach headroom test on the pre-trim verdict; the in-repo tests
TestQueueRefusesRequestWhenFilled and TestQueueHardAndSoftLimit require it
on the post-trim verdict, which is the reading used here.) -/
def appendOperation (q : QueueState) (op : ReplicateOp) : QueueState × AppendResult :=
  match tryVerdict q op.size with
  | Verdict.ok => (admitOp q op, AppendResult.ok)
  | _ =>
    let qt := trimQueue q
    match tryVerdict qt op.size with
    | Verdict.ok => (admitOp qt op, AppendResult.ok)
    | Verdict.softExceeded =>
      if qt.localCurrent + op.size ≤ qt.localLimits.hard
      then (admitOp qt op, AppendResult.ok)
      else (qt, AppendResult.serviceUnavailable)
    | Verdict.hardLocal =>
      if qt.buffer.isEmpty
      then (admitOp qt op, AppendResult.ok)
      else (qt, AppendResult.serviceUnavailable)
    | Verdict.hardParent => (qt, AppendResult.serviceUnavailable)

/-- Look up a tracked peer's cursor by uuid. -/
def lookupPeer : List (String × PeerCursor) → String → Option PeerCursor
  | [], _ => none
  | p :: rest, u => if p.1 = u then some p.2 else lookupPeer rest u

/-- Replace the cursor of the peer with the given uuid. -/
def updatePeer : List (String × PeerCursor) → String → PeerCursor → List (String × PeerCursor)
  | [], _, _ => []
  | p :: rest, u, c => (if p.1 = u then (p.1, c) else p) :: updatePeer rest u c

/-- Modelled from the spec: track_peer, absent from src/.  Adds a cursor at
the preceding op of init, not yet synced; a duplicate is rejected
(spec section 4.3). -/
def trackPeer (q : QueueState) (u : String) : QueueState × Bool :=
  match lookupPeer q.peers u with
  | some _ => (q, false)
  | none =>
    ({ q with peers := q.peers ++ [(u, ⟨q.preceding_at_init, false⟩)] }, true)

/-- The indices every tracked peer has confirmed received, sorted
descending (spec section 4.5). -/
def sortedAckIndices (peers : List (String × PeerCursor)) : List Nat :=
  List.insertionSort (fun a b => b ≤ a) (peers.map (fun p => p.2.last_received.index))

/-- Modelled from the spec: the commit candidate, the value at position
majority_size - 1 of the descending-sorted acknowledged indices; none when
fewer peers than majority_size are tracked (spec section 4.5). -/
def commitCandidate (peers : List (String × PeerCursor)) (k : Nat) : Option Nat :=
  (sortedAckIndices peers).get? (k - 1)

/-- The buffer entry at a given index, if retained. -/
def entryAt (buf : List ReplicateOp) (i : Nat) : Option ReplicateOp :=
  buf.find? (fun op => decide (op.id.index = i))

/-- Modelled from the spec: the commit calculator, absent from src/.  The
committed index moves to the quorum candidate only when the buffer entry
at that index carries the current leader term, and never regresses
(spec section 4.5). -/
def commitUpdate (cur : OpId) (curTerm : Nat) (buf : List ReplicateOp)
    (peers : List (String × PeerCursor)) (k : Nat) : OpId :=
  match commitCandidate peers k with
  | none => cur
  | some cand =>
    match entryAt buf cand with
    | none => cur
    | some op =>
      if op.id.term = curTerm ∧ OpId.lt cur ⟨op.id.term, cand⟩
      then ⟨op.id.term, cand⟩
      else cur

/-- Modelled from the spec: untrack_peer, absent from src/.  Removes the
cursor and recomputes the commit index (spec section 4.3). -/
def untrackPeer (q : QueueState) (u : String) : QueueState :=
  let peers2 := q.peers.filter (fun p => !(p.1 == u))
  { q with
    peers := peers2
    committed_index :=
      commitUpdate q.committed_index q.current_term q.buffer peers2 q.majority_size }

/-- Wire-level replication request built for one peer
(spec section 6). -/
structure ConsensusRequest where
  caller_term : Nat
  committed_index : OpId
  preceding_id : OpId
  ops : List ReplicateOp
deriving DecidableEq, Repr

/-- The buffer ops strictly past the peer's cursor, in buffer order. -/
def eligibleOps (buf : List ReplicateOp) (i : Nat) : List ReplicateOp :=
  buf.filter (fun op => decide (i < op.id.index))

/-- Accumulate ops while the running byte total stays within the batch
budget (spec section 4.3). -/
def takeWithinBudget : List ReplicateOp → Nat → Nat → List ReplicateOp
  | [], _, _ => []
  | op :: rest, budget, acc =>
    if acc + op.size ≤ budget
    then op :: takeWithinBudget rest budget (acc + op.size)
    else []

/-- The ops of a batch: the byte-bounded prefix of the eligible ops, with
the single-message fallback when even the first eligible op does not fit
(spec section 4.3). -/
def batchOps (buf : List ReplicateOp) (i : Nat) (budget : Nat) : List ReplicateOp :=
  let el := eligibleOps buf i
  let b := takeWithinBudget el budget 0
  if b.isEmpty && !el.isEmpty then el.take 1 else b

/-- Modelled from the spec: request_for_peer, absent from src/.  Fails on
an unknown peer; an unsynced peer gets an empty probing request; a synced
peer gets the byte-bounded batch after its cursor (spec section 4.3). -/
def requestForPeer (q : QueueState) (u : String) : Option ConsensusRequest :=
  match lookupPeer q.peers u with
  | none => none
  | some c =>
    some
      { caller_term := q.current_term
        committed_index := q.committed_index
        preceding_id := c.last_received
        ops :=
          if c.synced
          then batchOps q.buffer c.last_received.index q.max_batch_size
          else [] }

/-- Follower status carried in a response: the reported last received op
and whether a PRECEDING_ENTRY_DIDNT_MATCH error is attached
(spec section 6). -/
structure ConsensusStatus where
  last_received : OpId
  lmpMismatch : Bool
deriving DecidableEq, Repr

/-- Follower response (spec section 6). -/
structure ConsensusResponse where
  responder_uuid : String
  responder_term : Nat
  status : ConsensusStatus
deriving DecidableEq, Repr

/-- Result of response_from_peer: the new queue state, the more_pending
output, and whether a higher-term peer was signalled to the enclosing
consensus. -/
structure ResponseOutcome where
  state : QueueState
  more_pending : Bool
  higher_term_signal : Bool
deriving DecidableEq, Repr

/-- Modelled from the spec: response_from_peer, absent from src/
(spec section 4.4).  An untracked responder is ignored; a responder term
above the queue's current term is surfaced to the enclosing consensus and
nothing else changes; otherwise the response is an absolute update of the
peer's cursor, the commit index is recomputed, and more_pending is
derived.  (Spec section 4.4 step 3 leaves a refused peer unsynced; the
in-repo tests require that real batches flow right after the log-match
reply, the reading of spec sections 3 and 9 used here.) -/
def responseFromPeer (q : QueueState) (r : ConsensusResponse) : ResponseOutcome :=
  match lookupPeer q.peers r.responder_uuid with
  | none => ⟨q, false, false⟩
  | some _ =>
    if q.current_term < r.responder_term then ⟨q, false, true⟩
    else
      let c : PeerCursor := ⟨r.status.last_received, true⟩
      let peers2 := updatePeer q.peers r.responder_uuid c
      let committed2 :=
        commitUpdate q.committed_index q.current_term q.buffer peers2 q.majority_size
      let mp :=
        if r.status.lmpMismatch
        then q.buffer.any (fun op => decide (r.status.last_received.index ≤ op.id.index))
        else decide (r.status.last_received.index < q.next_index_to_append - 1)
      ⟨{ q with peers := peers2, committed_index := committed2 }, mp, false⟩

/-- Modelled from the spec: init, absent from src/.  Creates the queue at
a preceding op, leader term and majority size, with the configured local
limits, optional parent level with its pre-consumed bytes, and the batch
byte budget (spec sections 3 and 4.6). -/
def initQueue (preceding : OpId) (term majority : Nat) (lim : MemLimits)
    (plim : Option MemLimits) (pcur : Nat) (batch : Nat) : QueueState :=
  { current_term := term
    majority_size := majority
    committed_index := preceding
    next_index_to_append := preceding.index + 1
    preceding_at_init := preceding
    buffer := []
    peers := []
    localLimits := lim
    localCurrent := 0
    parentLimits := plim
    parentCurrent := pcur
    max_batch_size := batch }

/-- Release bytes at the process-wide parent accountant level
(spec section 4.1, release). -/
def parentRelease (q : QueueState) (n : Nat) : QueueState :=
  { q with parentCurrent := q.parentCurrent - n }

/-- One call against the queue's public facade (spec section 4.6). -/
inductive QueueAction where
  | append (op : ReplicateOp)
  | track (u : String)
  | untrack (u : String)
  | request (u : String)
  | response (r : ConsensusResponse)

/-- The state reached after one queue operation; request_for_peer reads
the state without changing it. -/
def stepAction (q : QueueState) : QueueAction → QueueState
  | QueueAction.append op => (appendOperation q op).1
  | QueueAction.track u => (trackPeer q u).1
  | QueueAction.untrack u => untrackPeer q u
  | QueueAction.request _ => q
  | QueueAction.response r => (responseFromPeer q r).state

/-- The state reached after a sequence of queue operations. -/
def runActions (q : QueueState) (acts : List QueueAction) : QueueState :=
  acts.foldl stepAction q

/-- Fold appends over a list of ops, recording whether every single append
was admitted. -/
def appendAll (q : QueueState) (ops : List ReplicateOp) : QueueState × Bool :=
  ops.foldl
    (fun p op =>
      let r := appendOperation p.1 op
      (r.1, p.2 && decide (r.2 = AppendResult.ok)))
    (q, true)

/-- The hard-limit test setup (TestQueueRefusesRequestWhenFilled): local
soft limit 0, local hard limit 1 MiB, no parent level. -/
def c6Start : QueueState := initQueue minOpId 0 1 ⟨0, 1048576⟩ none 0 4194304

/-- A 128 KiB payload plus a 16-byte envelope, as accounted by the queue. -/
def c6Size : Nat := 131088

/-- The state after appending ops 1..7 of 128 KiB each, with the flag
recording that all seven were admitted. -/
def c6AfterSeven : QueueState × Bool :=
  appendAll c6Start ((List.range 7).map (fun k => ⟨⟨0, k + 1⟩, c6Size⟩))

/-- The eighth 128 KiB op. -/
def c6Op8 : ReplicateOp := ⟨⟨1, 8⟩, c6Size⟩

/-- The global hard-limit setup (TestGlobalHardLimit): local soft 1 MiB and
hard 2 MiB, parent soft 4 MiB and hard 5 MiB, parent already consumed to
6 MiB. -/
def c7Start : QueueState :=
  initQueue minOpId 0 1 ⟨1048576, 2097152⟩ (some ⟨4194304, 5242880⟩) 6291456 4194304

/-- A 768 KiB payload plus a 16-byte envelope. -/
def c7Op : ReplicateOp := ⟨⟨1, 1⟩, 786448⟩

/-- Paged-delivery setup (TestGetPagedMessages): 100 unit-size ops, a batch
budget fitting exactly 9 of them, one peer synced at the start of the
log. -/
def c8Start : QueueState :=
  let q0 := initQueue minOpId 0 1 ⟨1000000, 1000000⟩ none 0 9
  let q1 := ((List.range 100).map (fun k => (⟨⟨0, k + 1⟩, 1⟩ : ReplicateOp))).foldl
    (fun q op => (appendOperation q op).1) q0
  let q2 := (trackPeer q1 "a").1
  (responseFromPeer q2 ⟨"a", 0, ⟨minOpId, true⟩⟩).state

/-- One request/response cycle for peer "a": pull a batch, acknowledge its
last op, and report the batch length and the more_pending output. -/
def c8Cycle (q : QueueState) : QueueState × Nat × Bool :=
  match requestForPeer q "a" with
  | none => (q, 0, false)
  | some req =>
    match req.ops.getLast? with
    | none => (q, 0, false)
    | some lastOp =>
      let out := responseFromPeer q ⟨"a", q.current_term, ⟨lastOp.id, false⟩⟩
      (out.state, req.ops.length, out.more_pending)

/-- The (batch length, more_pending) pairs observed over n delivery cycles
from the paged setup, with the final state. -/
def c8Trace : Nat → List (Nat × Bool) × QueueState
  | 0 => ([], c8Start)
  | n + 1 =>
    let p := c8Trace n
    let s := c8Cycle p.2
    (p.1 ++ [(s.2.1, s.2.2)], s.1)

/-- The quorum test input (TestQueueAdvancesCommittedIndex): majority 2,
three tracked peers, ops (0,1)..(0,7) and (1,8)..(1,10), then success
acknowledgements peer-1 (0,5), peer-2 (0,5), peer-3 (1,10), peer-1
(1,10), each at the leader's own term. -/
def c1TestRun : QueueState :=
  runActions (initQueue minOpId 0 2 ⟨1000000000, 1000000000⟩ none 0 1000000)
    ([QueueAction.track "peer-1", QueueAction.track "peer-2", QueueAction.track "peer-3"] ++
     (List.range 10).map
       (fun k => QueueAction.append ⟨⟨if k + 1 ≤ 7 then 0 else 1, k + 1⟩, 1⟩) ++
     [QueueAction.response ⟨"peer-1", 0, ⟨⟨0, 5⟩, false⟩⟩,
      QueueAction.response ⟨"peer-2", 0, ⟨⟨0, 5⟩, false⟩⟩,
      QueueAction.response ⟨"peer-3", 0, ⟨⟨1, 10⟩, false⟩⟩,
      QueueAction.response ⟨"peer-1", 0, ⟨⟨1, 10⟩, false⟩⟩])

theorem OpId.le_refl (a : OpId) : OpId.le a a := Or.inr ⟨rfl, Nat.le_refl _⟩

theorem OpId.le_trans {a b c : OpId} (h1 : OpId.le a b) (h2 : OpId.le b c) : OpId.le a c := by
  rcases h1 with h1 | ⟨e1, i1⟩ <;> rcases h2 with h2 | ⟨e2, i2⟩
  · exact Or.inl (Nat.lt_trans h1 h2)
  · exact Or.inl (e2 ▸ h1)
  · exact Or.inl (e1 ▸ h2)
  · exact Or.inr ⟨e1.trans e2, Nat.le_trans i1 i2⟩

theorem OpId.lt_irrefl (a : OpId) : ¬ OpId.lt a a := by
  rintro (h | ⟨-, h⟩) <;> exact Nat.lt_irrefl _ h

theorem OpId.lt_le {a b : OpId} (h : OpId.lt a b) : OpId.le a b := by
  rcases h with h | ⟨e, i⟩
  · exact Or.inl h
  · exact Or.inr ⟨e, Nat.le_of_lt i⟩

theorem commitUpdate_le (cur : OpId) (t : Nat) (buf : List ReplicateOp)
    (ps : List (String × PeerCursor)) (k : Nat) :
    OpId.le cur (commitUpdate cur t buf ps k) := by
  cases hc : commitCandidate ps k with
  | none => simp only [commitUpdate, hc]; exact OpId.le_refl _
  | some cand =>
    cases he : entryAt buf cand with
    | none => simp only [commitUpdate, hc, he]; exact OpId.le_refl _
    | some op =>
      by_cases h : op.id.term = t ∧ OpId.lt cur ⟨op.id.term, cand⟩
      · simp only [commitUpdate, hc, he, if_pos h]; exact OpId.lt_le h.2
      · simp only [commitUpdate, hc, he, if_neg h]; exact OpId.le_refl _

theorem commitUpdate_idem (cur : OpId) (t : Nat) (buf : List ReplicateOp)
    (ps : List (String × PeerCursor)) (k : Nat) :
    commitUpdate (commitUpdate cur t buf ps k) t buf ps k = commitUpdate cur t buf ps k := by
  cases hc : commitCandidate ps k with
  | none => simp only [commitUpdate, hc]
  | some cand =>
    cases he : entryAt buf cand with
    | none => simp only [commitUpdate, hc, he]
    | some op =>
      by_cases h : op.id.term = t ∧ OpId.lt cur ⟨op.id.term, cand⟩
      · simp only [commitUpdate, hc, he, if_pos h, ite_self]
      · simp only [commitUpdate, hc, he, if_neg h]

theorem trimQueue_committed (q : QueueState) :
    (trimQueue q).committed_index = q.committed_index := by
  unfold trimQueue; split <;> rfl

theorem trimQueue_current_term (q : QueueState) :
    (trimQueue q).current_term = q.current_term := by
  unfold trimQueue; split <;> rfl

theorem trimQueue_localLimits (q : QueueState) :
    (trimQueue q).localLimits = q.localLimits := by
  unfold trimQueue; split <;> rfl

theorem trimQueue_parentLimits (q : QueueState) :
    (trimQueue q).parentLimits = q.parentLimits := by
  unfold trimQueue; split <;> rfl

theorem trimQueue_localCurrent_le (q : QueueState) :
    (trimQueue q).localCurrent ≤ q.localCurrent := by
  unfold trimQueue; split
  · exact Nat.le_refl _
  · exact Nat.sub_le _ _

theorem trimQueue_parentCurrent_le (q : QueueState) :
    (trimQueue q).parentCurrent ≤ q.parentCurrent := by
  unfold trimQueue; split
  · exact Nat.le_refl _
  · exact Nat.sub_le _ _

theorem appendOperation_committed (q : QueueState) (op : ReplicateOp) :
    ((appendOperation q op).1).committed_index = q.committed_index := by
  unfold appendOperation
  split
  · rfl
  · cases htv : tryVerdict (trimQueue q) op.size with
    | ok => simp only [htv]; exact trimQueue_committed q
    | softExceeded =>
      simp only [htv]
      split
      · exact trimQueue_committed q
      · exact trimQueue_committed q
    | hardLocal =>
      simp only [htv]
      split
      · exact trimQueue_committed q
      · exact trimQueue_committed q
    | hardParent => simp only [htv]; exact trimQueue_committed q

theorem trackPeer_committed (q : QueueState) (u : String) :
    ((trackPeer q u).1).committed_index = q.committed_index := by
  unfold trackPeer
  split <;> rfl

theorem stepAction_committed_le (q : QueueState) (a : QueueAction) :
    OpId.le q.committed_index (stepAction q a).committed_index := by
  cases a with
  | append op =>
    rw [show stepAction q (QueueAction.append op) = (appendOperation q op).1 from rfl,
      appendOperation_committed]
    exact OpId.le_refl _
  | track u =>
    rw [show stepAction q (QueueAction.track u) = (trackPeer q u).1 from rfl,
      trackPeer_committed]
    exact OpId.le_refl _
  | untrack u =>
    exact commitUpdate_le _ _ _ _ _
  | request u =>
    exact OpId.le_refl _
  | response r =>
    show OpId.le q.committed_index ((responseFromPeer q r).state).committed_index
    cases hl : lookupPeer q.peers r.responder_uuid with
    | none => simp only [responseFromPeer, hl]; exact OpId.le_refl _
    | some c =>
      by_cases ht : q.current_term < r.responder_term
      · simp only [responseFromPeer, hl, if_pos ht]; exact OpId.le_refl _
      · simp only [responseFromPeer, hl, if_neg ht]; exact commitUpdate_le _ _ _ _ _

/-- Claim C3: across any sequence of queue operations (appends, track,
untrack, request_for_peer, response_from_peer), the committed index never
regresses: successive reads are non-decreasing in the total order on
OpId. -/
theorem c3_committed_monotone (q : QueueState) (acts : List QueueAction) :
    OpId.le q.committed_index (runActions q acts).committed_index := by
  induction acts generalizing q with
  | nil => exact OpId.le_refl _
  | cons a rest ih =>
    exact OpId.le_trans (stepAction_committed_le q a) (ih (stepAction q a))

theorem lookupPeer_updatePeer_self (ps : List (String × PeerCursor)) (u : String)
    (c0 c : PeerCursor) (h : lookupPeer ps u = some c0) :
    lookupPeer (updatePeer ps u c) u = some c := by
  induction ps with
  | nil => simp [lookupPeer] at h
  | cons p rest ih =>
    simp only [lookupPeer] at h
    by_cases hp : p.1 = u
    · simp [updatePeer, lookupPeer, hp]
    · rw [if_neg hp] at h
      simp only [updatePeer, if_neg hp, lookupPeer]
      exact ih h

theorem updatePeer_updatePeer (ps : List (String × PeerCursor)) (u : String) (c : PeerCursor) :
    updatePeer (updatePeer ps u c) u c = updatePeer ps u c := by
  induction ps with
  | nil => rfl
  | cons p rest ih =>
    by_cases hp : p.1 = u
    · simp [updatePeer, hp, ih]
    · simp [updatePeer, hp, ih]

/-- Claim C2: a response from a tracked peer whose responder_term is
strictly above the queue's current term signals the higher-term peer to
the enclosing consensus, changes nothing in the queue state (no cursor
update, no commit advance), and reports more_pending = false. -/
theorem c2_higher_term_observed (q : QueueState) (r : ConsensusResponse) (c : PeerCursor)
    (h1 : lookupPeer q.peers r.responder_uuid = some c)
    (h2 : q.current_term < r.responder_term) :
    responseFromPeer q r = ⟨q, false, true⟩ := by
  simp only [responseFromPeer, h1, if_pos h2]

/-- A queue at term 3 with one tracked peer. -/
def c2Q : QueueState :=
  { current_term := 3, majority_size := 1, committed_index := minOpId,
    next_index_to_append := 2, preceding_at_init := minOpId,
    buffer := [⟨⟨3, 1⟩, 100⟩], peers := [("a", ⟨minOpId, true⟩)],
    localLimits := ⟨1000, 1000⟩, localCurrent := 100,
    parentLimits := none, parentCurrent := 0, max_batch_size := 1000 }

/-- A response from that peer at the higher term 5. -/
def c2R : ConsensusResponse := ⟨"a", 5, ⟨⟨3, 1⟩, false⟩⟩

theorem c2_higher_term_observed_witness :
    responseFromPeer c2Q c2R = ⟨c2Q, false, true⟩ :=
  c2_higher_term_observed c2Q c2R ⟨minOpId, true⟩ rfl (by decide)

/-- Claim C9: applying the same response twice leaves the queue state
(peer cursors, committed index, buffer contents, accounted bytes) exactly
as after the first application. -/
theorem c9_response_idempotent (q : QueueState) (r : ConsensusResponse) :
    (responseFromPeer (responseFromPeer q r).state r).state = (responseFromPeer q r).state := by
  cases hl : lookupPeer q.peers r.responder_uuid with
  | none =>
    have h0 : responseFromPeer q r = ⟨q, false, false⟩ := by
      simp only [responseFromPeer, hl]
    simp [h0]
  | some c =>
    by_cases ht : q.current_term < r.responder_term
    · have h0 : responseFromPeer q r = ⟨q, false, true⟩ := by
        simp only [responseFromPeer, hl, if_pos ht]
      simp [h0]
    · have h0 : (responseFromPeer q r).state =
          { q with
            peers := updatePeer q.peers r.responder_uuid ⟨r.status.last_received, true⟩
            committed_index := commitUpdate q.committed_index q.current_term q.buffer
              (updatePeer q.peers r.responder_uuid ⟨r.status.last_received, true⟩)
              q.majority_size } := by
        simp only [responseFromPeer, hl, if_neg ht]
      rw [h0]
      have hl2 : lookupPeer (updatePeer q.peers r.responder_uuid ⟨r.status.last_received, true⟩)
          r.responder_uuid = some ⟨r.status.last_received, true⟩ :=
        lookupPeer_updatePeer_self _ _ c _ hl
      simp only [responseFromPeer, hl2, if_neg ht, updatePeer_updatePeer, commitUpdate_idem]

/-- Claim C10: a success response from any tracked peer is an absolute
cursor update (last_received taken verbatim, peer marked synced), and the
commit index is recomputed from the tracker including that updated cursor
— no prior request_for_peer call and no two-phase sync probe is
required. -/
theorem c10_success_absolute_update (q : QueueState) (r : ConsensusResponse) (c : PeerCursor)
    (h1 : lookupPeer q.peers r.responder_uuid = some c)
    (_h2 : r.status.lmpMismatch = false)
    (h3 : r.responder_term ≤ q.current_term) :
    lookupPeer ((responseFromPeer q r).state).peers r.responder_uuid =
        some ⟨r.status.last_received, true⟩ ∧
    ((responseFromPeer q r).state).committed_index =
        commitUpdate q.committed_index q.current_term q.buffer
          (updatePeer q.peers r.responder_uuid ⟨r.status.last_received, true⟩)
          q.majority_size := by
  have ht : ¬ q.current_term < r.responder_term := Nat.not_lt.mpr h3
  constructor
  · simp only [responseFromPeer, h1, if_neg ht]
    exact lookupPeer_updatePeer_self _ _ c _ h1
  · simp only [responseFromPeer, h1, if_neg ht]

/-- A single-peer queue whose tracked peer was never sent a request and
never completed the sync probe (synced = false). -/
def c10Q : QueueState :=
  { current_term := 0, majority_size := 1, committed_index := minOpId,
    next_index_to_append := 2, preceding_at_init := minOpId,
    buffer := [⟨⟨0, 1⟩, 10⟩], peers := [("a", ⟨minOpId, false⟩)],
    localLimits := ⟨1000, 1000⟩, localCurrent := 10,
    parentLimits := none, parentCurrent := 0, max_batch_size := 1000 }

/-- A success response (no error) acknowledging op (0, 1). -/
def c10R : ConsensusResponse := ⟨"a", 0, ⟨⟨0, 1⟩, false⟩⟩

theorem c10_success_absolute_update_witness :
    (lookupPeer ((responseFromPeer c10Q c10R).state).peers "a" = some ⟨⟨0, 1⟩, true⟩ ∧
     ((responseFromPeer c10Q c10R).state).committed_index =
       commitUpdate c10Q.committed_index c10Q.current_term c10Q.buffer
         (updatePeer c10Q.peers "a" ⟨⟨0, 1⟩, true⟩) c10Q.majority_size) ∧
    ((responseFromPeer c10Q c10R).state).committed_index = ⟨0, 1⟩ :=
  ⟨c10_success_absolute_update c10Q c10R ⟨minOpId, false⟩ rfl rfl (by decide), by decide⟩

/-- Claim C4: a tracked, synced peer with at least one buffer op past its
cursor always receives a request with at least one op, whatever the batch
byte budget. -/
theorem c4_single_message_guarantee (q : QueueState) (u : String) (c : PeerCursor)
    (h1 : lookupPeer q.peers u = some c)
    (h2 : c.synced = true)
    (h3 : ∃ op ∈ q.buffer, c.last_received.index < op.id.index) :
    ∃ req, requestForPeer q u = some req ∧ req.ops ≠ [] := by
  have hreq : requestForPeer q u = some
      { caller_term := q.current_term
        committed_index := q.committed_index
        preceding_id := c.last_received
        ops := batchOps q.buffer c.last_received.index q.max_batch_size } := by
    simp [requestForPeer, h1, h2]
  refine ⟨_, hreq, ?_⟩
  show batchOps q.buffer c.last_received.index q.max_batch_size ≠ []
  obtain ⟨op, hmem, hlt⟩ := h3
  have hel : op ∈ eligibleOps q.buffer c.last_received.index := by
    unfold eligibleOps
    exact List.mem_filter.2 ⟨hmem, by simpa using hlt⟩
  unfold batchOps
  cases hE : eligibleOps q.buffer c.last_received.index with
  | nil => rw [hE] at hel; cases hel
  | cons x xs =>
    cases hB : takeWithinBudget (x :: xs) q.max_batch_size 0 with
    | nil => simp [hE, hB]
    | cons y ys => simp [hE, hB]

/-- A queue holding one 2 MiB op, with a batch budget of only 10000
bytes and a synced tracked peer that has received nothing yet. -/
def c4Q : QueueState :=
  { current_term := 0, majority_size := 1, committed_index := minOpId,
    next_index_to_append := 2, preceding_at_init := minOpId,
    buffer := [⟨⟨0, 1⟩, 2097152⟩], peers := [("a", ⟨minOpId, true⟩)],
    localLimits := ⟨4194304, 4194304⟩, localCurrent := 2097152,
    parentLimits := none, parentCurrent := 0, max_batch_size := 10000 }

theorem c4_single_message_guarantee_witness :
    (∃ req, requestForPeer c4Q "a" = some req ∧ req.ops ≠ []) ∧
    (requestForPeer c4Q "a").map (fun req => req.ops.length) = some 1 :=
  ⟨c4_single_message_guarantee c4Q "a" ⟨minOpId, true⟩ rfl rfl
      ⟨⟨⟨0, 1⟩, 2097152⟩, by decide, by decide⟩,
    by decide⟩

theorem tryVerdict_soft_local (q : QueueState) (n : Nat)
    (h : tryVerdict q n = Verdict.softExceeded) :
    q.localCurrent + n ≤ q.localLimits.hard := by
  unfold tryVerdict at h
  by_cases hA : q.localLimits.hard < q.localCurrent + n
  · rw [if_pos hA] at h; simp at h
  · exact Nat.le_of_not_lt hA

theorem tryVerdict_soft_parent (q : QueueState) (n : Nat)
    (h : tryVerdict q n = Verdict.softExceeded) :
    parentHardHit q n = false := by
  unfold tryVerdict at h
  by_cases hA : q.localLimits.hard < q.localCurrent + n
  · rw [if_pos hA] at h; simp at h
  · rw [if_neg hA] at h
    by_cases hB : parentHardHit q n
    · rw [if_pos hB] at h; simp at h
    · simp only [Bool.not_eq_true] at hB; exact hB

theorem tryVerdict_no_hard (q : QueueState) (n : Nat)
    (hA : ¬ q.localLimits.hard < q.localCurrent + n)
    (hB : parentHardHit q n = false) :
    tryVerdict q n = Verdict.ok ∨ tryVerdict q n = Verdict.softExceeded := by
  unfold tryVerdict
  rw [if_neg hA, hB]
  by_cases hC : q.localLimits.soft < q.localCurrent + n
  · rw [if_neg (by simp), if_pos hC]; exact Or.inr rfl
  · rw [if_neg (by simp), if_neg hC]
    by_cases hD : parentSoftHit q n
    · rw [if_pos hD]; exact Or.inr rfl
    · rw [if_neg hD]; exact Or.inl rfl

/-- Claim C5: when the first try_consume verdict is soft_exceeded and the
post-trim retry still is not ok, the op is admitted anyway — pushed onto
the trimmed buffer and charged to the accountant — and the proviso of the
claim holds: the local hard limit is not crossed by the op.  (A
service_unavailable return is impossible here, matching the claim's "only
if the hard limit would be crossed".) -/
theorem c5_soft_breach_admitted (q : QueueState) (op : ReplicateOp)
    (h1 : tryVerdict q op.size = Verdict.softExceeded)
    (h2 : tryVerdict (trimQueue q) op.size ≠ Verdict.ok) :
    (trimQueue q).localCurrent + op.size ≤ (trimQueue q).localLimits.hard ∧
    appendOperation q op = (admitOp (trimQueue q) op, AppendResult.ok) := by
  have hlocal : q.localCurrent + op.size ≤ q.localLimits.hard := tryVerdict_soft_local q _ h1
  have hparent : parentHardHit q op.size = false := tryVerdict_soft_parent q _ h1
  have hlocal2 : (trimQueue q).localCurrent + op.size ≤ (trimQueue q).localLimits.hard := by
    rw [trimQueue_localLimits]
    exact Nat.le_trans (Nat.add_le_add_right (trimQueue_localCurrent_le q) _) hlocal
  have hparent2 : parentHardHit (trimQueue q) op.size = false := by
    unfold parentHardHit at hparent ⊢
    rw [trimQueue_parentLimits]
    cases hpl : q.parentLimits with
    | none => rfl
    | some pl =>
      rw [hpl] at hparent
      simp only [decide_eq_false_iff_not] at hparent ⊢
      intro hcon
      exact hparent
        (Nat.lt_of_lt_of_le hcon (Nat.add_le_add_right (trimQueue_parentCurrent_le q) _))
  have hno_hl : ¬ (trimQueue q).localLimits.hard < (trimQueue q).localCurrent + op.size :=
    Nat.not_lt.mpr hlocal2
  rcases tryVerdict_no_hard (trimQueue q) op.size hno_hl hparent2 with hok | hsoft
  · exact absurd hok h2
  · refine ⟨hlocal2, ?_⟩
    simp only [appendOperation, h1, hsoft, if_pos hlocal2]

/-- A queue in soft breach: local soft limit 10, hard limit 100, 8 bytes
already accounted, no tracked peer (nothing trimmable). -/
def c5Q : QueueState :=
  { current_term := 0, majority_size := 1, committed_index := minOpId,
    next_index_to_append := 2, preceding_at_init := minOpId,
    buffer := [⟨⟨0, 1⟩, 8⟩], peers := [],
    localLimits := ⟨10, 100⟩, localCurrent := 8,
    parentLimits := none, parentCurrent := 0, max_batch_size := 1000 }

/-- A 5-byte op whose admission breaches the soft limit only. -/
def c5Op : ReplicateOp := ⟨⟨0, 2⟩, 5⟩

theorem c5_soft_breach_admitted_witness :
    (trimQueue c5Q).localCurrent + c5Op.size ≤ (trimQueue c5Q).localLimits.hard ∧
    appendOperation c5Q c5Op = (admitOp (trimQueue c5Q) c5Op, AppendResult.ok) :=
  c5_soft_breach_admitted c5Q c5Op (by decide) (by decide)

/-- Claim C6: with a local hard limit of 1 MiB and 128 KiB payloads
(accounted with their 16-byte envelope), ops 1..7 are all admitted, op 8
is refused with service_unavailable, and after a tracked peer
acknowledges op 2 — freeing the acked prefix by opportunistic trim — the
same op 8 is admitted. -/
theorem c6_hard_limit_refusal_then_recovery :
    c6AfterSeven.2 = true ∧
    (appendOperation c6AfterSeven.1 c6Op8).2 = AppendResult.serviceUnavailable ∧
    (let q1 := (appendOperation c6AfterSeven.1 c6Op8).1
     let q2 := (trackPeer q1 "a").1
     let q3 := (responseFromPeer q2 ⟨"a", 0, ⟨minOpId, true⟩⟩).state
     let q4 := (responseFromPeer q3 ⟨"a", 0, ⟨⟨1, 2⟩, false⟩⟩).state
     (appendOperation q4 c6Op8).2) = AppendResult.ok := by
  refine ⟨by decide, by decide, by decide⟩

/-- Claim C7: with the process-wide parent accountant consumed past its
global hard limit, the append is refused with service_unavailable even
though the local limits are respected; after the parent releases 2 MiB,
the identical append is admitted. -/
theorem c7_global_hard_limit :
    (appendOperation c7Start c7Op).2 = AppendResult.serviceUnavailable ∧
    (appendOperation (parentRelease (appendOperation c7Start c7Op).1 2097152) c7Op).2 =
      AppendResult.ok := by
  refine ⟨by decide, by decide⟩

/-- Claim C8: with a batch budget fitting exactly 9 ops and 100 ops
appended, draining the buffer to the synced peer takes exactly 12
request/response cycles — 11 batches of 9 ops with more_pending = true
after each acknowledgement, then 1 batch of one op with
more_pending = false after the final acknowledgement. -/
theorem c8_paged_delivery :
    (c8Trace 12).1 = List.replicate 11 (9, true) ++ [(1, false)] := by decide

/-- Claim C1 (evaluation of the spec-faithful model at the test's input):
under the commit rule that only entries of the current leader term
advance the committed index, the acknowledgement sequence of
TestQueueAdvancesCommittedIndex stops committing at (0, 5) — it cannot
reach the (1, 10) the in-repo test asserts, because entry 10 carries term
1 while the queue was initialized at term 0. -/
theorem c1_commit_term_rule_at_test_input :
    c1TestRun.committed_index = ⟨0, 5⟩ ∧ c1TestRun.current_term = 0 := by
  refine ⟨by decide, by decide⟩

end ConsensusQueue
